import Mathlib

/-!
Shallow embedding of the go-ngr package (Ordnance Survey national grid
references), translated from src/ngr.go: the `GridRef` and `GridCoord` data
model, the myriad lookup tables, the `ngrCre` string grammar, and the
conversions `GridRef.ToLatLon` and `GridCoord.ToGridRef`, together with
theorems settling the specification's claims about them.

Go `int` is modelled as `Int` (no operation here approaches 64-bit overflow),
Go strings as Lean `String` (all inputs of interest are ASCII, so Go's
byte/rune distinction is immaterial except where noted), Go's `(value, error)`
returns as `Except String`.
-/

deriving instance DecidableEq for Except

namespace Ngr

/-- Go struct `GridCoord`: coordinate in whole metres from the grid origin. -/
structure GridCoord where
  Easting : Int
  Northing : Int
deriving DecidableEq

/-- Go struct `GridRef`: myriad code plus verbatim easting/northing digit
strings. -/
structure GridRef where
  myriad : String
  easting : String
  northing : String
deriving DecidableEq

/-- H and J rows of `myriadOffsets` (split only to keep elaboration cheap;
`myriadOffsets` below is their concatenation, entry order as in the Go source
literal). -/
def myriadOffsetsHJ : List (String × GridCoord) := [
  ("HF", ⟨0, 1300000⟩), ("HG", ⟨100000, 1300000⟩), ("HH", ⟨200000, 1300000⟩), ("HJ", ⟨300000, 1300000⟩), ("HK", ⟨400000, 1300000⟩),
  ("HL", ⟨0, 1200000⟩), ("HM", ⟨100000, 1200000⟩), ("HN", ⟨200000, 1200000⟩), ("HO", ⟨300000, 1200000⟩), ("HP", ⟨400000, 1200000⟩),
  ("HQ", ⟨0, 1100000⟩), ("HR", ⟨100000, 1100000⟩), ("HS", ⟨200000, 1100000⟩), ("HT", ⟨300000, 1100000⟩), ("HU", ⟨400000, 1100000⟩),
  ("HV", ⟨0, 1000000⟩), ("HW", ⟨100000, 1000000⟩), ("HX", ⟨200000, 1000000⟩), ("HY", ⟨300000, 1000000⟩), ("HZ", ⟨400000, 1000000⟩),
  ("JF", ⟨500000, 1300000⟩), ("JG", ⟨600000, 1300000⟩), ("JH", ⟨700000, 1300000⟩),
  ("JL", ⟨500000, 1200000⟩), ("JM", ⟨600000, 1200000⟩), ("JN", ⟨700000, 1200000⟩),
  ("JQ", ⟨500000, 1100000⟩), ("JR", ⟨600000, 1100000⟩), ("JS", ⟨700000, 1100000⟩),
  ("JV", ⟨500000, 1000000⟩), ("JW", ⟨600000, 1000000⟩), ("JX", ⟨700000, 1000000⟩)]

/-- N and O rows of `myriadOffsets`. -/
def myriadOffsetsNO : List (String × GridCoord) := [
  ("NA", ⟨0, 900000⟩), ("NB", ⟨100000, 900000⟩), ("NC", ⟨200000, 900000⟩), ("ND", ⟨300000, 900000⟩), ("NE", ⟨400000, 900000⟩),
  ("NF", ⟨0, 800000⟩), ("NG", ⟨100000, 800000⟩), ("NH", ⟨200000, 800000⟩), ("NJ", ⟨300000, 800000⟩), ("NK", ⟨400000, 800000⟩),
  ("NL", ⟨0, 700000⟩), ("NM", ⟨100000, 700000⟩), ("NN", ⟨200000, 700000⟩), ("NO", ⟨300000, 700000⟩), ("NP", ⟨400000, 700000⟩),
  ("NQ", ⟨0, 600000⟩), ("NR", ⟨100000, 600000⟩), ("NS", ⟨200000, 600000⟩), ("NT", ⟨300000, 600000⟩), ("NU", ⟨400000, 600000⟩),
  ("NV", ⟨0, 500000⟩), ("NW", ⟨100000, 500000⟩), ("NX", ⟨200000, 500000⟩), ("NY", ⟨300000, 500000⟩), ("NZ", ⟨400000, 500000⟩),
  ("OA", ⟨500000, 900000⟩), ("OB", ⟨600000, 900000⟩), ("OC", ⟨700000, 900000⟩),
  ("OF", ⟨500000, 800000⟩), ("OG", ⟨600000, 800000⟩), ("OH", ⟨700000, 800000⟩),
  ("OL", ⟨500000, 700000⟩), ("OM", ⟨600000, 700000⟩), ("ON", ⟨700000, 700000⟩),
  ("OQ", ⟨500000, 600000⟩), ("OR", ⟨600000, 600000⟩), ("OS", ⟨700000, 600000⟩),
  ("OV", ⟨500000, 500000⟩), ("OW", ⟨600000, 500000⟩), ("OX", ⟨700000, 500000⟩)]

/-- S, T, X and Y rows of `myriadOffsets`. -/
def myriadOffsetsSTXY : List (String × GridCoord) := [
  ("SA", ⟨0, 400000⟩), ("SB", ⟨100000, 400000⟩), ("SC", ⟨200000, 400000⟩), ("SD", ⟨300000, 400000⟩), ("SE", ⟨400000, 400000⟩),
  ("SF", ⟨0, 300000⟩), ("SG", ⟨100000, 300000⟩), ("SH", ⟨200000, 300000⟩), ("SJ", ⟨300000, 300000⟩), ("SK", ⟨400000, 300000⟩),
  ("SL", ⟨0, 200000⟩), ("SM", ⟨100000, 200000⟩), ("SN", ⟨200000, 200000⟩), ("SO", ⟨300000, 200000⟩), ("SP", ⟨400000, 200000⟩),
  ("SQ", ⟨0, 100000⟩), ("SR", ⟨100000, 100000⟩), ("SS", ⟨200000, 100000⟩), ("ST", ⟨300000, 100000⟩), ("SU", ⟨400000, 100000⟩),
  ("SV", ⟨0, 0⟩), ("SW", ⟨100000, 0⟩), ("SX", ⟨200000, 0⟩), ("SY", ⟨300000, 0⟩), ("SZ", ⟨400000, 0⟩),
  ("TA", ⟨500000, 400000⟩), ("TB", ⟨600000, 400000⟩), ("TC", ⟨700000, 400000⟩),
  ("TF", ⟨500000, 300000⟩), ("TG", ⟨600000, 300000⟩), ("TH", ⟨700000, 300000⟩),
  ("TL", ⟨500000, 200000⟩), ("TM", ⟨600000, 200000⟩), ("TN", ⟨700000, 200000⟩),
  ("TQ", ⟨500000, 100000⟩), ("TR", ⟨600000, 100000⟩), ("TS", ⟨700000, 100000⟩),
  ("TV", ⟨500000, 0⟩), ("TW", ⟨600000, 0⟩), ("TX", ⟨700000, 0⟩),
  ("XA", ⟨0, -100000⟩), ("XB", ⟨100000, -100000⟩), ("XC", ⟨200000, -100000⟩), ("XD", ⟨300000, -100000⟩), ("XE", ⟨400000, -100000⟩),
  ("YA", ⟨500000, -100000⟩), ("YB", ⟨600000, -100000⟩), ("YC", ⟨700000, -100000⟩)]

/-- `myriadOffsets` from src/ngr.go: map from myriad code to the `GridCoord`
of its south-west corner, modelled as an association list (Go map lookup is
by key equality, so entry order is irrelevant). -/
def myriadOffsets : List (String × GridCoord) :=
  myriadOffsetsHJ ++ myriadOffsetsNO ++ myriadOffsetsSTXY

/-- Go map indexing `myriadOffsets[m]` on the association list. -/
def lookupOffset (m : String) : List (String × GridCoord) → Option GridCoord
  | [] => none
  | kv :: rest => if m = kv.1 then some kv.2 else lookupOffset m rest

/-- `myriadTable` from src/ngr.go: 2D arrangement of myriads, row = easting
band, column = northing band shifted one row south (Channel Islands hack). -/
def myriadTable : List (List String) := [
  ["XA", "SV", "SQ", "SL", "SF", "SA", "NV", "NQ", "NL", "NF", "NA", "HV", "HQ", "HL", "HF"],
  ["XB", "SW", "SR", "SM", "SG", "SB", "NW", "NR", "NM", "NG", "NB", "HW", "HR", "HM", "HG"],
  ["XC", "SX", "SS", "SN", "SH", "SC", "NX", "NS", "NN", "NH", "NC", "HX", "HS", "HN", "HH"],
  ["XD", "SY", "ST", "SO", "SJ", "SD", "NY", "NT", "NO", "NJ", "ND", "HY", "HT", "HO", "HJ"],
  ["XE", "SZ", "SU", "SP", "SK", "SE", "NZ", "NU", "NP", "NK", "NE", "HZ", "HU", "HP", "HK"],
  ["YA", "TV", "TQ", "TL", "TF", "TA", "OV", "OQ", "OL", "OF", "OA", "JV", "JQ", "JL", "JF"],
  ["YB", "TW", "TR", "TM", "TG", "TB", "OW", "OR", "OM", "OG", "OB", "JW", "JR", "JM", "JG"],
  ["YC", "TX", "TS", "TN", "TH", "TC", "OX", "OS", "ON", "OH", "OC", "JX", "JS", "JN", "JH"]]

/-- `lo ≤ c && c ≤ hi`: one character-class range of the `ngrCre` myriad
alternation (e.g. `[F-H]`). -/
def charBetween (lo hi c : Char) : Bool := lo ≤ c && c ≤ hi

/-- The myriad alternation of `ngrCre`:
`([JH][F-H])|([NS][A-H])|([HNS][J-Z])|([OTY][A-C])|([OT][F-H])|([JOT][L-N])|([JOT][Q-S])|([JOT][V-X])|(X[A-E])`.
All nine branches consume exactly two characters, so ordered-alternation
semantics reduce to plain disjunction. -/
def matchMyriadPair (c1 c2 : Char) : Bool :=
  ((c1 == 'J' || c1 == 'H') && charBetween 'F' 'H' c2) ||
  ((c1 == 'N' || c1 == 'S') && charBetween 'A' 'H' c2) ||
  ((c1 == 'H' || c1 == 'N' || c1 == 'S') && charBetween 'J' 'Z' c2) ||
  ((c1 == 'O' || c1 == 'T' || c1 == 'Y') && charBetween 'A' 'C' c2) ||
  ((c1 == 'O' || c1 == 'T') && charBetween 'F' 'H' c2) ||
  ((c1 == 'J' || c1 == 'O' || c1 == 'T') && charBetween 'L' 'N' c2) ||
  ((c1 == 'J' || c1 == 'O' || c1 == 'T') && charBetween 'Q' 'S' c2) ||
  ((c1 == 'J' || c1 == 'O' || c1 == 'T') && charBetween 'V' 'X' c2) ||
  (c1 == 'X' && charBetween 'A' 'E' c2)

/-- The digit alternation of `ngrCre`,
`(\d ?\d|\d{2} ?\d{2}|\d{3} ?\d{3}|\d{4} ?\d{4}|\d{5} ?\d{5})`, matched
against the whole of `l` (the regex is anchored with `$`). Because every
branch consumes exactly its two fixed-length digit groups plus at most one
interior space, at most one branch can consume all of `l`, so the ordered
alternation is equivalent to this deterministic case split: either `l` is all
digits of even length 2..10 (split in half), or it is digits, one space,
digits with equal group lengths 1..5. -/
def matchDigitPair (l : List Char) : Option (List Char × List Char) :=
  match l.dropWhile Char.isDigit with
  | [] =>
    if (l.takeWhile Char.isDigit).length = 2 ∨ (l.takeWhile Char.isDigit).length = 4 ∨
        (l.takeWhile Char.isDigit).length = 6 ∨ (l.takeWhile Char.isDigit).length = 8 ∨
        (l.takeWhile Char.isDigit).length = 10 then
      some ((l.takeWhile Char.isDigit).take ((l.takeWhile Char.isDigit).length / 2),
            (l.takeWhile Char.isDigit).drop ((l.takeWhile Char.isDigit).length / 2))
    else none
  | ' ' :: l2 =>
    if l2.all Char.isDigit ∧ (l.takeWhile Char.isDigit).length = l2.length ∧
        1 ≤ (l.takeWhile Char.isDigit).length ∧ (l.takeWhile Char.isDigit).length ≤ 5 then
      some (l.takeWhile Char.isDigit, l2)
    else none
  | _ => none

/-- The tail of `ngrCre` after the two myriad letters: ` ?(digit-pair)?$`.
The optional space must be consumed when present (no digit branch can match a
leading space), and the whole digit group is optional. -/
def parseTail : List Char → Option (List Char × List Char)
  | [] => some ([], [])
  | ' ' :: rest => if rest = [] then some ([], []) else matchDigitPair rest
  | rest => matchDigitPair rest

/-- `ngrCre.FindStringSubmatch` on the anchored pattern, returning the
`myriad` capture and whichever easting/northing captures matched (empty
strings when the digit group is absent), exactly as `NewGridRefFromString`
reads them out of the match. -/
def parseNgr (l : List Char) : Option (String × String × String) :=
  match l with
  | c1 :: c2 :: rest =>
    if matchMyriadPair c1 c2 then
      match parseTail rest with
      | some (e, n) => some (⟨[c1, c2]⟩, ⟨e⟩, ⟨n⟩)
      | none => none
    else none
  | _ => none

/-- The extraction phase of `NewGridRefFromString` (src/ngr.go lines 59-79):
a two-rune string bypasses the grammar entirely and becomes the myriad;
anything else must match `ngrCre`, whose captures fill the fields. -/
def extractGridRef (value : String) : Except String GridRef :=
  if value.data.length = 2 then
    Except.ok { myriad := value, easting := "", northing := "" }
  else
    match parseNgr value.data with
    | none => Except.error ("badly formatted NGR \"" ++ value ++ "\"")
    | some (m, e, n) => Except.ok { myriad := m, easting := e, northing := n }

/-- `NewGridRefFromString` from src/ngr.go: extraction, then the myriad must
be a key of `myriadOffsets` and the digit-string lengths must agree. -/
def NewGridRefFromString (value : String) : Except String GridRef :=
  match extractGridRef value with
  | Except.error e => Except.error e
  | Except.ok gridRef =>
    match lookupOffset gridRef.myriad myriadOffsets with
    | none => Except.error ("unknown myriad \"" ++ (⟨value.data.take 2⟩ : String) ++ "\"")
    | some _ =>
      if gridRef.easting.length ≠ gridRef.northing.length then
        Except.error ("mismatched GridRef easting=\"" ++ gridRef.easting ++
          "\" northing=\"" ++ gridRef.northing ++ "\" lengths")
      else
        Except.ok gridRef

/-- `GridRef.String()` from src/ngr.go (named `toString`, since `String` is
the Lean string type). -/
def GridRef.toString (ngr : GridRef) : String :=
  if ngr.easting ≠ "" then ngr.myriad ++ " " ++ ngr.easting ++ " " ++ ngr.northing
  else ngr.myriad

/-- `GridRef.DigitResolution()` from src/ngr.go: length of the easting digit
string (as Go `int`). -/
def GridRef.DigitResolution (ngr : GridRef) : Int := ngr.easting.length

/-- Numeric value of a decimal digit character. -/
def digitVal (c : Char) : Nat := c.toNat - 48

/-- Value of an unsigned decimal digit string, most significant digit first. -/
def digitsToNat (l : List Char) : Nat := l.foldl (fun a c => a * 10 + digitVal c) 0

/-- `strconv.Atoi`: an optional single sign followed by one or more decimal
digits, rejected otherwise. Overflow is not modelled: Go's `int` is 64-bit and
every digit string this package feeds to Atoi has at most five digits. -/
def Atoi (s : String) : Except String Int :=
  match s.data with
  | [] => Except.error "invalid syntax"
  | c :: rest =>
    if c = '+' then
      if rest ≠ [] ∧ rest.all Char.isDigit then Except.ok (digitsToNat rest)
      else Except.error "invalid syntax"
    else if c = '-' then
      if rest ≠ [] ∧ rest.all Char.isDigit then Except.ok (-(digitsToNat rest : Int))
      else Except.error "invalid syntax"
    else
      if (c :: rest).all Char.isDigit then Except.ok (digitsToNat (c :: rest))
      else Except.error "invalid syntax"

/-- `factor := int(math.Pow(10, float64(5-len)))` from `ToLatLon`. For
`len ≤ 5` this is exactly `10^(5-len)` (small powers of ten are exact in
float64); for `len > 5`, `math.Pow` yields a value strictly below 1 and the
`int` conversion truncates it to 0. -/
def powFactor (n : Nat) : Int := if n ≤ 5 then (10 : Int) ^ (5 - n) else 0

/-- `GridRef.ToLatLon` from src/ngr.go: myriad offset lookup, length check,
digit parsing, projection by `powFactor`, offset addition. In Go `easting`
and `northing` start at 0 and are only assigned when the digit strings are
nonempty; the two branches below mirror that. -/
def GridRef.ToLatLon (ngr : GridRef) : Except String GridCoord :=
  match lookupOffset ngr.myriad myriadOffsets with
  | none => Except.error ("unknown GridRef myriad \"" ++ ngr.myriad ++ "\"")
  | some myriadOffset =>
    if ngr.easting.length ≠ ngr.northing.length then
      Except.error ("mismatched GridRef easting=\"" ++ ngr.easting ++
        "\" northing=\"" ++ ngr.northing ++ "\" lengths")
    else if ngr.easting.length = 0 then
      let factor := powFactor ngr.easting.length
      Except.ok { Easting := 0 * factor + myriadOffset.Easting,
                  Northing := 0 * factor + myriadOffset.Northing }
    else
      match Atoi ngr.easting with
      | Except.error e => Except.error ("invalid digits in NGR easting: " ++ e)
      | Except.ok easting =>
        match Atoi ngr.northing with
        | Except.error e => Except.error ("invalid digits in NGR northing: " ++ e)
        | Except.ok northing =>
          let factor := powFactor ngr.easting.length
          Except.ok { Easting := easting * factor + myriadOffset.Easting,
                      Northing := northing * factor + myriadOffset.Northing }

/-- `formatLookup` from src/ngr.go: digit resolution → (printf zero-pad
width, divisor). The Go divisors are the floats 10000.0 … 1.0 and factor 0.0
marks the myriad-only special case; every division using them is exact on the
integers below 100000 that occur, so they are modelled as integers. -/
def formatLookup (digitResolution : Int) : Option (Nat × Int) :=
  if digitResolution = 0 then some (0, 0)
  else if digitResolution = 1 then some (1, 10000)
  else if digitResolution = 2 then some (2, 1000)
  else if digitResolution = 3 then some (3, 100)
  else if digitResolution = 4 then some (4, 10)
  else if digitResolution = 5 then some (5, 1)
  else none

/-- The resolution error message of `GridCoord.ToGridRef`. -/
def invalidResolutionMsg (digitResolution : Int) : String :=
  "digitResolution should be 0, 1, 2, 3, 4 or 5 (not " ++ ToString.toString digitResolution ++ ")"

/-- Decimal digit character of a digit value. -/
def digitChar (n : Nat) : Char := Char.ofNat (48 + n)

/-- Decimal digits of `n`, most significant first. Fuel-driven structural
recursion; fuel `n + 1` always suffices because the argument shrinks by a
factor of ten each step. -/
def natDigitsAux : Nat → Nat → List Char → List Char
  | 0, _, acc => acc
  | fuel + 1, n, acc =>
    if n < 10 then digitChar n :: acc
    else natDigitsAux fuel (n / 10) (digitChar (n % 10) :: acc)

/-- Decimal digit characters of `n`, most significant first. -/
def natDigits (n : Nat) : List Char := natDigitsAux (n + 1) n []

/-- `fmt.Sprintf` with format `%0*d` applied to a nonnegative value: the
decimal digits, left-padded with zeros to the requested width (never
truncated when wider). -/
def zeroPad (width n : Nat) : String :=
  ⟨List.replicate (width - (natDigits n).length) '0' ++ natDigits n⟩

/-- `GridCoord.ToGridRef` from src/ngr.go. Every `/` and `%` below is applied
to operands the preceding guards prove nonnegative, where Go's
truncate-toward-zero division and remainder agree with Lean's euclidean `/`
and `%` on `Int`. `math.Floor(float64(x)/factor)` is exact integer division
for the operands that occur (both below 100000 < 2^53). Go's locals `i` and
`j` (row and column indices) are inlined into the expressions they name. -/
def GridCoord.ToGridRef (coord : GridCoord) (digitResolution : Int) : Except String GridRef :=
  match formatLookup digitResolution with
  | none => Except.error (invalidResolutionMsg digitResolution)
  | some config =>
    if coord.Easting < 0 then
      Except.error "outside UK - west of extents (northing untested)"
    else if coord.Easting / 100000 ≥ (myriadTable.length : Int) then
      Except.error "outside UK - east of extents (northing untested)"
    else if coord.Northing + 100000 < 0 then
      Except.error "outside UK - south of extents (Easting Ok)"
    else if (coord.Northing + 100000) / 100000 ≥
        ((myriadTable.getD (coord.Easting / 100000).toNat []).length : Int) then
      Except.error "outside UK - north of extents (Easting Ok)"
    else if config.2 = 0 then
      Except.ok { myriad := (myriadTable.getD (coord.Easting / 100000).toNat []).getD
                    ((coord.Northing + 100000) / 100000).toNat "",
                  easting := "", northing := "" }
    else
      Except.ok { myriad := (myriadTable.getD (coord.Easting / 100000).toNat []).getD
                    ((coord.Northing + 100000) / 100000).toNat "",
                  easting := zeroPad config.1 ((coord.Easting % 100000) / config.2).toNat,
                  northing := zeroPad config.1 (((coord.Northing + 100000) % 100000) / config.2).toNat }

/-- The uppercase letters A–Z, the domain of the myriad allow-list checks. -/
def ltrs : List Char :=
  ['A', 'B', 'C', 'D', 'E', 'F', 'G', 'H', 'I', 'J', 'K', 'L', 'M',
   'N', 'O', 'P', 'Q', 'R', 'S', 'T', 'U', 'V', 'W', 'X', 'Y', 'Z']

/-- All two-letter codes with first letter from `a` and second from `b`. -/
def pairCodes (a b : List Char) : List String :=
  a.flatMap fun c1 => b.map fun c2 => (⟨[c1, c2]⟩ : String)

/-- Modelled from the spec: the myriad allow-list exactly as enumerated in the
specification's external-interface section, for comparison against the code's
`myriadOffsets` and `ngrCre` grammar. -/
def specAllowedMyriads : List String :=
  pairCodes ['J'] ['F', 'G', 'H'] ++
  pairCodes ['N', 'S'] ['A', 'B', 'C', 'D', 'E', 'F', 'G', 'H'] ++
  pairCodes ['H', 'N', 'S'] ['J', 'K', 'L', 'M', 'N', 'O', 'P', 'Q', 'R', 'S', 'T', 'U', 'V', 'W', 'X', 'Y', 'Z'] ++
  pairCodes ['O', 'T', 'Y'] ['A', 'B', 'C'] ++
  pairCodes ['O', 'T'] ['F', 'G', 'H'] ++
  pairCodes ['J', 'O', 'T'] ['L', 'M', 'N'] ++
  pairCodes ['J', 'O', 'T'] ['Q', 'R', 'S'] ++
  pairCodes ['J', 'O', 'T'] ['V', 'W', 'X'] ++
  pairCodes ['X'] ['A', 'B', 'C', 'D', 'E']

/-! ### Decimal digit toolkit

Facts about `digitVal`, `digitChar`, `digitsToNat`, `natDigits` and `zeroPad`
used to reason about `Atoi` and the `%0*d` formatting in `ToGridRef`. -/

lemma isDigit_eq_toNat (c : Char) : c.isDigit = (48 ≤ c.toNat && c.toNat ≤ 57) := by
  simp only [Char.isDigit, Char.toNat, Char.le_def, decide_eq_true_eq]
  rfl

lemma isDigit_toNat_bounds {c : Char} (h : c.isDigit = true) :
    48 ≤ c.toNat ∧ c.toNat ≤ 57 := by
  rw [isDigit_eq_toNat] at h
  simpa using h

lemma digitVal_lt_ten {c : Char} (h : c.isDigit = true) : digitVal c < 10 := by
  have := isDigit_toNat_bounds h
  unfold digitVal
  omega

lemma digitChar_digitVal {c : Char} (h : c.isDigit = true) : digitChar (digitVal c) = c := by
  have hb := isDigit_toNat_bounds h
  unfold digitChar digitVal
  have h48 : 48 + (c.toNat - 48) = c.toNat := by omega
  rw [h48, Char.ofNat_toNat]

lemma digitChar_isDigit {k : Nat} (h : k < 10) : (digitChar k).isDigit = true := by
  interval_cases k <;> decide

lemma toNat_eq_48_iff {c : Char} : c.toNat = 48 ↔ c = '0' := by
  constructor
  · intro h
    have := Char.ofNat_toNat c
    rw [h] at this
    exact this.symm
  · intro h
    subst h
    rfl

lemma natDigitsAux_fuel : ∀ f1 f2 n acc, n < f1 → n < f2 →
    natDigitsAux f1 n acc = natDigitsAux f2 n acc := by
  intro f1
  induction f1 with
  | zero => intro f2 n acc h1; omega
  | succ f ih =>
    intro f2 n acc h1 h2
    cases f2 with
    | zero => omega
    | succ f2' =>
      simp only [natDigitsAux]
      by_cases h : n < 10
      · simp [h]
      · simp only [h, if_false]
        have hd : n / 10 < n := Nat.div_lt_self (by omega) (by omega)
        exact ih f2' (n / 10) _ (by omega) (by omega)

lemma natDigitsAux_acc : ∀ f n acc, natDigitsAux f n acc = natDigitsAux f n [] ++ acc := by
  intro f
  induction f with
  | zero => simp [natDigitsAux]
  | succ f ih =>
    intro n acc
    simp only [natDigitsAux]
    by_cases h : n < 10
    · simp [h]
    · simp only [h, if_false]
      rw [ih (n / 10) (digitChar (n % 10) :: acc), ih (n / 10) [digitChar (n % 10)]]
      simp

lemma natDigits_lt_ten {n : Nat} (h : n < 10) : natDigits n = [digitChar n] := by
  unfold natDigits natDigitsAux
  simp [h]

lemma natDigits_ge_ten {n : Nat} (h : 10 ≤ n) :
    natDigits n = natDigits (n / 10) ++ [digitChar (n % 10)] := by
  have hd : n / 10 < n := Nat.div_lt_self (by omega) (by omega)
  unfold natDigits
  conv =>
    lhs
    simp only [natDigitsAux]
  simp only [Nat.not_lt.mpr h, if_false]
  rw [natDigitsAux_acc, natDigitsAux_fuel n (n / 10 + 1) (n / 10) [] (by omega) (by omega)]

lemma natDigits_length_pos (n : Nat) : 1 ≤ (natDigits n).length := by
  by_cases h : n < 10
  · simp [natDigits_lt_ten h]
  · rw [natDigits_ge_ten (by omega)]
    simp

lemma natDigits_length_le : ∀ k n, 1 ≤ k → n < 10 ^ k → (natDigits n).length ≤ k := by
  intro k
  induction k with
  | zero => omega
  | succ k ih =>
    intro n _ hlt
    by_cases h : n < 10
    · simp [natDigits_lt_ten h]
    · have hk : 1 ≤ k := by
        by_contra hk0
        have : k = 0 := by omega
        subst this
        simp [pow_succ] at hlt
        omega
      rw [natDigits_ge_ten (by omega)]
      have hdiv : n / 10 < 10 ^ k := by
        rw [pow_succ] at hlt
        omega
      have := ih (n / 10) hk hdiv
      simp only [List.length_append, List.length_cons, List.length_nil]
      omega

lemma natDigits_all_digit : ∀ n, ∀ c ∈ natDigits n, c.isDigit = true := by
  intro n
  induction n using Nat.strong_induction_on with
  | _ n ih =>
    by_cases h : n < 10
    · rw [natDigits_lt_ten h]
      intro c hc
      simp at hc
      subst hc
      exact digitChar_isDigit h
    · rw [natDigits_ge_ten (by omega)]
      intro c hc
      rcases List.mem_append.mp hc with h1 | h2
      · exact ih (n / 10) (Nat.div_lt_self (by omega) (by omega)) c h1
      · simp at h2
        subst h2
        exact digitChar_isDigit (Nat.mod_lt _ (by omega))

lemma digitsToNat_append (l : List Char) (c : Char) :
    digitsToNat (l ++ [c]) = digitsToNat l * 10 + digitVal c := by
  unfold digitsToNat
  rw [List.foldl_append]
  rfl

lemma digitsToNat_cons (c : Char) (t : List Char) :
    digitsToNat (c :: t) = List.foldl (fun a x => a * 10 + digitVal x) (digitVal c) t := by
  unfold digitsToNat
  simp

lemma foldl_digits_le : ∀ (l : List Char) (a : Nat),
    a ≤ List.foldl (fun a x => a * 10 + digitVal x) a l := by
  intro l
  induction l with
  | nil => simp
  | cons c t ih =>
    intro a
    simp only [List.foldl_cons]
    calc a ≤ a * 10 + digitVal c := by omega
    _ ≤ _ := ih _

lemma foldl_digits_lt : ∀ (l : List Char) (a : Nat), (∀ c ∈ l, c.isDigit = true) →
    List.foldl (fun a x => a * 10 + digitVal x) a l < (a + 1) * 10 ^ l.length := by
  intro l
  induction l with
  | nil => simp
  | cons c t ih =>
    intro a h
    simp only [List.foldl_cons, List.length_cons]
    have hc : digitVal c < 10 := digitVal_lt_ten (h c (by simp))
    have ht := ih (a * 10 + digitVal c) (fun x hx => h x (by simp [hx]))
    calc List.foldl (fun a x => a * 10 + digitVal x) (a * 10 + digitVal c) t
        < (a * 10 + digitVal c + 1) * 10 ^ t.length := ht
    _ ≤ (a + 1) * 10 ^ (t.length + 1) := by
        rw [pow_succ]
        have h1 : a * 10 + digitVal c + 1 ≤ (a + 1) * 10 := by omega
        calc (a * 10 + digitVal c + 1) * 10 ^ t.length
            ≤ (a + 1) * 10 * 10 ^ t.length := Nat.mul_le_mul_right _ h1
        _ = (a + 1) * (10 ^ t.length * 10) := by ring

lemma digitsToNat_lt (l : List Char) (h : ∀ c ∈ l, c.isDigit = true) :
    digitsToNat l < 10 ^ l.length := by
  have := foldl_digits_lt l 0 h
  unfold digitsToNat
  omega

lemma digitsToNat_pos {c : Char} (t : List Char) (hd : c.isDigit = true) (hc : c ≠ '0') :
    1 ≤ digitsToNat (c :: t) := by
  rw [digitsToNat_cons]
  have h48 := isDigit_toNat_bounds hd
  have : c.toNat ≠ 48 := fun h => hc (toNat_eq_48_iff.mp h)
  have h1 : 1 ≤ digitVal c := by unfold digitVal; omega
  calc 1 ≤ digitVal c := h1
  _ ≤ _ := foldl_digits_le t (digitVal c)

lemma natDigits_digitsToNat : ∀ (l : List Char), (∀ c ∈ l, c.isDigit = true) →
    l ≠ [] → l.head? ≠ some '0' → natDigits (digitsToNat l) = l := by
  intro l
  induction l using List.reverseRecOn with
  | nil => intro _ h; simp at h
  | append_singleton t c ih =>
    intro hdig hne hhead
    cases t with
    | nil =>
      have hc : c.isDigit = true := hdig c (by simp)
      have : digitsToNat [c] = digitVal c := by
        rw [digitsToNat_cons]
        rfl
      simp only [List.nil_append] at hhead ⊢
      rw [this, natDigits_lt_ten (digitVal_lt_ten hc), digitChar_digitVal hc]
    | cons c0 t0 =>
      have hd0 : c0.isDigit = true := hdig c0 (by simp)
      have hc0 : c0 ≠ '0' := by
        intro h
        apply hhead
        simp [h]
      have hv : 1 ≤ digitsToNat (c0 :: t0) := digitsToNat_pos t0 hd0 hc0
      have hc : c.isDigit = true := hdig c (by simp)
      have hcv : digitVal c < 10 := digitVal_lt_ten hc
      rw [digitsToNat_append]
      have h10 : 10 ≤ digitsToNat (c0 :: t0) * 10 + digitVal c := by omega
      rw [natDigits_ge_ten h10]
      have hdiv : (digitsToNat (c0 :: t0) * 10 + digitVal c) / 10 = digitsToNat (c0 :: t0) := by
        omega
      have hmod : (digitsToNat (c0 :: t0) * 10 + digitVal c) % 10 = digitVal c := by
        omega
      rw [hdiv, hmod, digitChar_digitVal hc,
        ih (fun x hx => hdig x (by simp at hx ⊢; tauto)) (by simp) (by simpa using hhead)]

lemma zeroPad_digitsToNat : ∀ (l : List Char), (∀ c ∈ l, c.isDigit = true) → l ≠ [] →
    zeroPad l.length (digitsToNat l) = ⟨l⟩ := by
  intro l
  induction l with
  | nil => intro _ h; simp at h
  | cons c t ih =>
    intro hdig _
    by_cases hc : c = '0'
    · subst hc
      cases t with
      | nil => decide
      | cons c0 t0 =>
        have heq : digitsToNat ('0' :: c0 :: t0) = digitsToNat (c0 :: t0) := by
          rw [digitsToNat_cons, digitsToNat_cons, List.foldl_cons]
          have h0 : digitVal '0' = 0 := rfl
          rw [h0]
          simp
        have ht := ih (fun x hx => hdig x (by simp [hx])) (by simp)
        have hlt : digitsToNat (c0 :: t0) < 10 ^ (c0 :: t0).length :=
          digitsToNat_lt _ (fun x hx => hdig x (by simp [hx]))
        have hdl : (natDigits (digitsToNat (c0 :: t0))).length ≤ (c0 :: t0).length :=
          natDigits_length_le _ _ (by simp) hlt
        have htd : List.replicate ((c0 :: t0).length - (natDigits (digitsToNat (c0 :: t0))).length) '0'
            ++ natDigits (digitsToNat (c0 :: t0)) = c0 :: t0 := by
          have hdata := congrArg String.data ht
          simpa [zeroPad] using hdata
        rw [heq]
        unfold zeroPad
        have hrep : ('0' :: c0 :: t0).length - (natDigits (digitsToNat (c0 :: t0))).length =
            ((c0 :: t0).length - (natDigits (digitsToNat (c0 :: t0))).length) + 1 := by
          simp only [List.length_cons] at hdl ⊢
          omega
        rw [hrep, List.replicate_succ]
        refine congrArg String.mk ?_
        simpa using htd
    · have hfull : natDigits (digitsToNat (c :: t)) = c :: t :=
        natDigits_digitsToNat (c :: t) hdig (by simp) (by simp [hc])
      unfold zeroPad
      rw [hfull]
      simp

lemma zeroPad_length {w n : Nat} (hw : 1 ≤ w) (h : n < 10 ^ w) :
    (zeroPad w n).length = w := by
  have hle : (natDigits n).length ≤ w := natDigits_length_le w n hw h
  show (zeroPad w n).data.length = w
  unfold zeroPad
  simp only [List.length_append, List.length_replicate]
  omega

lemma zeroPad_all_digit (w n : Nat) : (zeroPad w n).data.all Char.isDigit = true := by
  unfold zeroPad
  rw [List.all_eq_true]
  intro c hc
  rcases List.mem_append.mp hc with h1 | h2
  · have := List.eq_of_mem_replicate h1
    subst this
    decide
  · exact natDigits_all_digit n c h2

/-! ### Lookup-table facts -/

lemma lookupOffset_mem : ∀ (l : List (String × GridCoord)) (m : String) (v : GridCoord),
    lookupOffset m l = some v → (m, v) ∈ l := by
  intro l
  induction l with
  | nil => intro m v h; simp [lookupOffset] at h
  | cons kv rest ih =>
    intro m v h
    unfold lookupOffset at h
    by_cases hm : m = kv.1
    · rw [if_pos hm] at h
      have hv : v = kv.2 := by
        injection h with h
        exact h.symm
      have : (m, v) = kv := by
        rw [Prod.ext_iff]
        exact ⟨hm, hv⟩
      rw [this]
      exact List.mem_cons_self _ _
    · rw [if_neg hm] at h
      exact List.mem_cons_of_mem _ (ih m v h)

set_option maxRecDepth 4000 in
/-- Agreement of `myriadOffsets` with `myriadTable`: each offset's row/column
indices select its own key in the table, and every offset is a multiple of
100000 inside the table's extents (the Go comment records that `myriadOffsets`
was generated from `myriadTable`). -/
lemma tables_agree : ∀ kv ∈ myriadOffsets,
    (myriadTable.getD (kv.2.Easting / 100000).toNat []).getD
      ((kv.2.Northing + 100000) / 100000).toNat "" = kv.1 ∧
    0 ≤ kv.2.Easting ∧ kv.2.Easting < 800000 ∧ kv.2.Easting % 100000 = 0 ∧
    0 ≤ kv.2.Northing + 100000 ∧ kv.2.Northing + 100000 < 1500000 ∧
    (kv.2.Northing + 100000) % 100000 = 0 := by decide

lemma offsets_keys_no_space : ∀ kv ∈ myriadOffsets,
    kv.1.data.all (fun c => c ≠ ' ') = true := by decide

lemma table_entries_keys_bool :
    (myriadTable.all fun row => row.all fun m => (lookupOffset m myriadOffsets).isSome) = true := by
  rfl

lemma table_entries_keys : ∀ row ∈ myriadTable, ∀ m ∈ row,
    (lookupOffset m myriadOffsets).isSome = true := by
  intro row hr m hm
  exact List.all_eq_true.mp (List.all_eq_true.mp table_entries_keys_bool row hr) m hm

lemma myriadTable_row_length : ∀ row ∈ myriadTable, row.length = 15 := by decide

lemma myriadTable_getD_length {k : Nat} (h : k < 8) :
    (myriadTable.getD k []).length = 15 := by
  have hk : k < myriadTable.length := by
    have : myriadTable.length = 8 := rfl
    omega
  rw [List.getD_eq_getElem _ _ hk]
  exact myriadTable_row_length _ (List.getElem_mem hk)

lemma myriadTable_getD_getD_key {k j : Nat} (hk : k < 8) (hj : j < 15) :
    (lookupOffset ((myriadTable.getD k []).getD j "") myriadOffsets).isSome = true := by
  have hkl : k < myriadTable.length := by
    have : myriadTable.length = 8 := rfl
    omega
  rw [List.getD_eq_getElem _ _ hkl]
  have hrow := myriadTable_row_length _ (List.getElem_mem hkl)
  have hjl : j < myriadTable[k].length := by omega
  rw [List.getD_eq_getElem _ _ hjl]
  exact table_entries_keys _ (List.getElem_mem hkl) _ (List.getElem_mem hjl)

/-! ### Atoi and ToLatLon on digit strings -/

lemma Atoi_digits (s : String) (hne : s.data ≠ []) (h : s.data.all Char.isDigit = true) :
    Atoi s = Except.ok (digitsToNat s.data : Int) := by
  cases hs : s.data with
  | nil => exact absurd hs hne
  | cons c rest =>
    have hc : c.isDigit = true := by
      rw [hs] at h
      simp only [List.all_cons, Bool.and_eq_true] at h
      exact h.1
    have hcp : c ≠ '+' := by
      intro e
      rw [e] at hc
      exact absurd hc (by decide)
    have hcm : c ≠ '-' := by
      intro e
      rw [e] at hc
      exact absurd hc (by decide)
    rw [hs] at h
    unfold Atoi
    rw [hs]
    simp [hcp, hcm, h]

lemma ToLatLon_digits (g : GridRef) (off : GridCoord)
    (hoff : lookupOffset g.myriad myriadOffsets = some off)
    (he : g.easting.data.all Char.isDigit = true)
    (hn : g.northing.data.all Char.isDigit = true)
    (hlen : g.easting.length = g.northing.length) :
    GridRef.ToLatLon g = Except.ok
      ⟨(digitsToNat g.easting.data : Int) * powFactor g.easting.length + off.Easting,
       (digitsToNat g.northing.data : Int) * powFactor g.easting.length + off.Northing⟩ := by
  have hne' : ¬(g.easting.length ≠ g.northing.length) := by omega
  by_cases h0 : g.easting.length = 0
  · have hlen0 : g.northing.length = 0 := by omega
    have he0 : g.easting.data = [] := List.length_eq_zero.mp h0
    have hn0 : g.northing.data = [] := List.length_eq_zero.mp hlen0
    have hz : digitsToNat g.easting.data = 0 := by rw [he0]; rfl
    have hz2 : digitsToNat g.northing.data = 0 := by rw [hn0]; rfl
    simp [GridRef.ToLatLon, hoff, hne', h0, hlen0, hz, hz2]
  · have hene : g.easting.data ≠ [] := by
      intro hh
      apply h0
      show g.easting.data.length = 0
      rw [hh]
      rfl
    have hnne : g.northing.data ≠ [] := by
      intro hh
      have : g.northing.length = 0 := by
        show g.northing.data.length = 0
        rw [hh]
        rfl
      omega
    simp [GridRef.ToLatLon, hoff, hne', h0, Atoi_digits _ hene he, Atoi_digits _ hnne hn]

/-! ### Grammar facts -/

lemma digit_ne_space {c : Char} (h : c.isDigit = true) : c ≠ ' ' := by
  intro he
  rw [he] at h
  exact absurd h (by decide)

lemma upper_ne_space {c : Char} (h : 'A' ≤ c) : c ≠ ' ' := by
  intro he
  rw [he] at h
  exact absurd h (by decide)

lemma between_upper {lo hi c : Char} (h1 : lo ≤ c) (h2 : c ≤ hi)
    (hA : 'A' ≤ lo) (hZ : hi ≤ 'Z') : 'A' ≤ c ∧ c ≤ 'Z' :=
  ⟨le_trans hA h1, le_trans h2 hZ⟩

lemma matchMyriadPair_upper {c1 c2 : Char} (h : matchMyriadPair c1 c2 = true) :
    ('A' ≤ c1 ∧ c1 ≤ 'Z') ∧ ('A' ≤ c2 ∧ c2 ≤ 'Z') := by
  unfold matchMyriadPair charBetween at h
  simp only [Bool.or_eq_true, Bool.and_eq_true, beq_iff_eq, decide_eq_true_eq] at h
  rcases h with ((((((((h | h) | h) | h) | h) | h) | h) | h) | h) <;>
    refine ⟨?_, between_upper h.2.1 h.2.2 (by decide) (by decide)⟩ <;>
    rcases h.1 with (rfl | rfl) | rfl <;> decide

lemma filter_eq_self_of_digits {l : List Char} (h : ∀ c ∈ l, c.isDigit = true) :
    l.filter (fun c => c ≠ ' ') = l := by
  rw [List.filter_eq_self]
  intro c hc
  simp only [decide_eq_true_eq]
  exact digit_ne_space (h c hc)

lemma matchDigitPair_sound {l e n : List Char}
    (h : matchDigitPair l = some (e, n)) :
    (∀ c ∈ e, c.isDigit = true) ∧ (∀ c ∈ n, c.isDigit = true) ∧
    e.length = n.length ∧ 1 ≤ e.length ∧ e.length ≤ 5 ∧
    l.filter (fun c => c ≠ ' ') = e ++ n := by
  unfold matchDigitPair at h
  split at h
  · next heq =>
    split at h
    · next hcond =>
      injection h with h
      injection h with he hn
      subst he
      subst hn
      have hl : l.takeWhile Char.isDigit = l := by
        conv =>
          rhs
          rw [← List.takeWhile_append_dropWhile Char.isDigit l]
        rw [heq, List.append_nil]
      have hdig : ∀ c ∈ l, c.isDigit = true := by
        intro c hc
        rw [← hl] at hc
        exact List.mem_takeWhile_imp hc
      rw [hl] at hcond ⊢
      have hdig2 : ∀ c ∈ l.take (l.length / 2), c.isDigit = true :=
        fun c hc => hdig c (List.take_subset _ _ hc)
      have hdig3 : ∀ c ∈ l.drop (l.length / 2), c.isDigit = true :=
        fun c hc => hdig c (List.drop_subset _ _ hc)
      refine ⟨hdig2, hdig3, ?_, ?_, ?_, ?_⟩
      · simp only [List.length_take, List.length_drop]
        omega
      · simp only [List.length_take]
        omega
      · simp only [List.length_take]
        omega
      · rw [filter_eq_self_of_digits hdig, List.take_append_drop]
    · exact absurd h (by simp)
  · next l2 heq =>
    split at h
    · next hcond =>
      injection h with h
      injection h with he hn
      subst he
      subst hn
      obtain ⟨hl2dig, hlen, h1, h5⟩ := hcond
      have hl : l = l.takeWhile Char.isDigit ++ ' ' :: l2 := by
        conv =>
          lhs
          rw [← List.takeWhile_append_dropWhile Char.isDigit l]
        rw [heq]
      have hdig1 : ∀ c ∈ l.takeWhile Char.isDigit, c.isDigit = true :=
        fun c hc => List.mem_takeWhile_imp hc
      have hdig2 : ∀ c ∈ l2, c.isDigit = true := by
        intro c hc
        exact List.all_eq_true.mp hl2dig c hc
      refine ⟨hdig1, hdig2, hlen, h1, h5, ?_⟩
      conv =>
        lhs
        rw [hl]
      rw [List.filter_append, filter_eq_self_of_digits hdig1, List.filter_cons]
      simp only [decide_eq_true_eq]
      rw [if_neg (by simp)]
      rw [filter_eq_self_of_digits hdig2]
    · exact absurd h (by simp)
  · exact absurd h (by simp)

lemma parseTail_sound {rest e n : List Char}
    (h : parseTail rest = some (e, n)) :
    (∀ c ∈ e, c.isDigit = true) ∧ (∀ c ∈ n, c.isDigit = true) ∧
    e.length = n.length ∧ e.length ≤ 5 ∧
    rest.filter (fun c => c ≠ ' ') = e ++ n := by
  unfold parseTail at h
  split at h
  · injection h with h
    injection h with he hn
    subst he
    subst hn
    simp
  · next rest' =>
    split at h
    · next hr =>
      subst hr
      injection h with h
      injection h with he hn
      subst he
      subst hn
      simp
    · obtain ⟨d1, d2, d3, d4, d5, d6⟩ := matchDigitPair_sound h
      refine ⟨d1, d2, d3, by omega, ?_⟩
      rw [List.filter_cons]
      simp only [decide_eq_true_eq]
      rw [if_neg (by simp)]
      exact d6
  · next hne1 hne2 =>
    obtain ⟨d1, d2, d3, d4, d5, d6⟩ := matchDigitPair_sound h
    exact ⟨d1, d2, d3, by omega, d6⟩

lemma parseNgr_sound {l : List Char} {m e n : String}
    (h : parseNgr l = some (m, e, n)) :
    ∃ c1 c2 rest, l = c1 :: c2 :: rest ∧ matchMyriadPair c1 c2 = true ∧
      m = (⟨[c1, c2]⟩ : String) ∧ parseTail rest = some (e.data, n.data) := by
  unfold parseNgr at h
  split at h
  · next c1 c2 rest =>
    split at h
    · next hmp =>
      split at h
      · next e' n' hpt =>
        injection h with h
        injection h with hm h
        injection h with he hn
        refine ⟨c1, c2, rest, rfl, hmp, hm.symm, ?_⟩
        rw [← he, ← hn]
        exact hpt
      · exact absurd h (by simp)
    · exact absurd h (by simp)
  · exact absurd h (by simp)

lemma filter_eq_self_of_no_space {l : List Char} (h : l.all (fun c => c ≠ ' ') = true) :
    l.filter (fun c => c ≠ ' ') = l := by
  rw [List.filter_eq_self]
  exact fun a ha => List.all_eq_true.mp h a ha

lemma extractGridRef_ok {s : String} {g : GridRef} (h : extractGridRef s = Except.ok g) :
    (s.data.length = 2 ∧ g = ⟨s, "", ""⟩) ∨
    (∃ c1 c2 rest, s.data = c1 :: c2 :: rest ∧ matchMyriadPair c1 c2 = true ∧
      g.myriad = (⟨[c1, c2]⟩ : String) ∧
      parseTail rest = some (g.easting.data, g.northing.data)) := by
  unfold extractGridRef at h
  split at h
  · next h2 =>
    injection h with h
    exact Or.inl ⟨h2, h.symm⟩
  · next h2 =>
    split at h
    · exact absurd h (by simp)
    · next m e n hp =>
      injection h with h
      obtain ⟨c1, c2, rest, hl, hm, hmy, hpt⟩ := parseNgr_sound hp
      subst h
      exact Or.inr ⟨c1, c2, rest, hl, hm, hmy, hpt⟩

lemma NewGridRefFromString_ok {s : String} {g : GridRef}
    (h : NewGridRefFromString s = Except.ok g) :
    (∃ off, lookupOffset g.myriad myriadOffsets = some off) ∧
    g.easting.data.all Char.isDigit = true ∧
    g.northing.data.all Char.isDigit = true ∧
    g.easting.length = g.northing.length ∧
    g.easting.length ≤ 5 ∧
    (GridRef.toString g).data.filter (fun c => c ≠ ' ') = s.data.filter (fun c => c ≠ ' ') := by
  unfold NewGridRefFromString at h
  split at h
  · exact absurd h (by simp)
  · next gr hpr =>
    split at h
    · exact absurd h (by simp)
    · next off hoff =>
      split at h
      · exact absurd h (by simp)
      · next hlen =>
        injection h with h
        subst h
        rcases extractGridRef_ok hpr with ⟨hs2, hgr⟩ | ⟨c1, c2, rest, hl, hm, hmy, hpt⟩
        · subst hgr
          refine ⟨⟨off, hoff⟩, rfl, rfl, rfl, ?_, ?_⟩
          · show ("" : String).length ≤ 5
            decide
          have hmem := lookupOffset_mem _ _ _ hoff
          have hns := offsets_keys_no_space _ hmem
          simp only [GridRef.toString]
          rw [if_neg (by simp)]
        · obtain ⟨hde, hdn, hdl, hd5, hdf⟩ := parseTail_sound hpt
          have hupper := matchMyriadPair_upper hm
          have hc1 : c1 ≠ ' ' := upper_ne_space hupper.1.1
          have hc2 : c2 ≠ ' ' := upper_ne_space hupper.2.1
          have hall_e : gr.easting.data.all Char.isDigit = true := List.all_eq_true.mpr hde
          have hall_n : gr.northing.data.all Char.isDigit = true := List.all_eq_true.mpr hdn
          have hlen' : gr.easting.length = gr.northing.length := hdl
          refine ⟨⟨off, hoff⟩, hall_e, hall_n, hlen', hd5, ?_⟩
          rw [hl, List.filter_cons, List.filter_cons]
          simp only [decide_eq_true_eq]
          rw [if_pos hc1, if_pos hc2, hdf]
          by_cases he : gr.easting = ""
          · have hed : gr.easting.data = [] := by rw [he]
            have hnd : gr.northing.data = [] := by
              have : gr.northing.data.length = 0 := by
                have h1 : gr.easting.data.length = gr.northing.data.length := hlen'
                rw [hed] at h1
                simpa using h1.symm
              exact List.length_eq_zero.mp this
            simp only [GridRef.toString]
            rw [if_neg (by simp [he]), hmy]
            simp [hed, hnd, filter_eq_self_of_no_space, hc1, hc2]
          · simp only [GridRef.toString]
            rw [if_pos (by simp [he]), hmy]
            rw [String.data_append, String.data_append, String.data_append, String.data_append]
            rw [List.filter_append, List.filter_append, List.filter_append, List.filter_append]
            rw [filter_eq_self_of_digits hde, filter_eq_self_of_digits hdn]
            have hsp : ((" " : String).data.filter (fun c => c ≠ ' ')) = [] := by decide
            rw [hsp]
            have hm12 : (([c1, c2] : List Char).filter (fun c => c ≠ ' ')) = [c1, c2] := by
              rw [List.filter_cons, List.filter_cons]
              simp only [decide_eq_true_eq]
              rw [if_pos hc1, if_pos hc2]
              rfl
            show ([c1, c2] : List Char).filter (fun c => c ≠ ' ') ++ _ ++ _ ++ _ ++ _ = _
            rw [hm12]
            simp

/-! ### ToGridRef facts -/

lemma formatLookup_eq_some {r : Int} {cfg : Nat × Int} (h : formatLookup r = some cfg) :
    (r = 0 ∧ cfg = (0, 0)) ∨ (r = 1 ∧ cfg = (1, 10000)) ∨ (r = 2 ∧ cfg = (2, 1000)) ∨
    (r = 3 ∧ cfg = (3, 100)) ∨ (r = 4 ∧ cfg = (4, 10)) ∨ (r = 5 ∧ cfg = (5, 1)) := by
  unfold formatLookup at h
  split_ifs at h with h0 h1 h2 h3 h4 h5 <;>
    injection h with h <;> subst h <;> tauto

lemma formatLookup_none {r : Int} (h0 : ¬(0 ≤ r ∧ r ≤ 5)) : formatLookup r = none := by
  unfold formatLookup
  split_ifs <;> first | rfl | omega

lemma formatLookup_isSome {r : Int} (h0 : 0 ≤ r) (h5 : r ≤ 5) :
    ∃ cfg, formatLookup r = some cfg := by
  unfold formatLookup
  split_ifs <;> first | (exact ⟨_, rfl⟩) | omega

lemma ToGridRef_inbounds {coord : GridCoord} {r : Int} {width : Nat} {factor : Int}
    (hf : formatLookup r = some (width, factor))
    (he0 : 0 ≤ coord.Easting) (he1 : coord.Easting < 800000)
    (hn0 : 0 ≤ coord.Northing + 100000) (hn1 : coord.Northing + 100000 < 1500000) :
    GridCoord.ToGridRef coord r =
      (if factor = 0 then
        Except.ok ⟨(myriadTable.getD (coord.Easting / 100000).toNat []).getD
          ((coord.Northing + 100000) / 100000).toNat "", "", ""⟩
      else
        Except.ok ⟨(myriadTable.getD (coord.Easting / 100000).toNat []).getD
            ((coord.Northing + 100000) / 100000).toNat "",
          zeroPad width ((coord.Easting % 100000) / factor).toNat,
          zeroPad width (((coord.Northing + 100000) % 100000) / factor).toNat⟩) := by
  have h8 : (myriadTable.length : Int) = 8 := rfl
  have hi8 : (coord.Easting / 100000).toNat < 8 := by omega
  have hrow : (myriadTable.getD (coord.Easting / 100000).toNat []).length = 15 :=
    myriadTable_getD_length hi8
  unfold GridCoord.ToGridRef
  simp only [hf]
  rw [if_neg (by omega), if_neg (by omega), if_neg (by omega), if_neg (by omega)]

lemma ToGridRef_ok_inv {coord : GridCoord} {r : Int} {g : GridRef}
    (h : GridCoord.ToGridRef coord r = Except.ok g) :
    (lookupOffset g.myriad myriadOffsets).isSome = true ∧
    g.easting.data.all Char.isDigit = true ∧
    g.northing.data.all Char.isDigit = true ∧
    g.easting.length = g.northing.length ∧
    g.easting.length ≤ 5 := by
  unfold GridCoord.ToGridRef at h
  split at h
  · exact absurd h (by simp)
  · next cfg hf =>
    split_ifs at h with h1 h2 h3 h4 h5
    · -- myriad-only result
      injection h with h
      subst h
      have hi8 : (coord.Easting / 100000).toNat < 8 := by
        have h8 : (myriadTable.length : Int) = 8 := rfl
        omega
      have hrow := myriadTable_getD_length hi8
      have hj15 : ((coord.Northing + 100000) / 100000).toNat < 15 := by omega
      refine ⟨myriadTable_getD_getD_key hi8 hj15, rfl, rfl, rfl, ?_⟩
      show ("" : String).length ≤ 5
      decide
    · -- digit result
      injection h with h
      subst h
      have hi8 : (coord.Easting / 100000).toNat < 8 := by
        have h8 : (myriadTable.length : Int) = 8 := rfl
        omega
      have hrow := myriadTable_getD_length hi8
      have hj15 : ((coord.Northing + 100000) / 100000).toNat < 15 := by omega
      have hkey := myriadTable_getD_getD_key hi8 hj15
      have hme : 0 ≤ coord.Easting % 100000 ∧ coord.Easting % 100000 < 100000 := by omega
      have hmn : 0 ≤ (coord.Northing + 100000) % 100000 ∧
          (coord.Northing + 100000) % 100000 < 100000 := by omega
      have hwf : ((coord.Easting % 100000) / cfg.2).toNat < 10 ^ cfg.1 ∧
          (((coord.Northing + 100000) % 100000) / cfg.2).toNat < 10 ^ cfg.1 := by
        rcases formatLookup_eq_some hf with ⟨_, hc⟩ | ⟨_, hc⟩ | ⟨_, hc⟩ | ⟨_, hc⟩ | ⟨_, hc⟩ | ⟨_, hc⟩ <;>
          subst hc <;> constructor <;> simp only [] <;> omega
      have hle : (zeroPad cfg.1 ((coord.Easting % 100000) / cfg.2).toNat).length = cfg.1 := by
        apply zeroPad_length ?_ hwf.1
        rcases formatLookup_eq_some hf with ⟨_, hc⟩ | ⟨_, hc⟩ | ⟨_, hc⟩ | ⟨_, hc⟩ | ⟨_, hc⟩ | ⟨_, hc⟩ <;>
          subst hc <;> first | (exact absurd rfl h5) | decide
      have hln : (zeroPad cfg.1 (((coord.Northing + 100000) % 100000) / cfg.2).toNat).length = cfg.1 := by
        apply zeroPad_length ?_ hwf.2
        rcases formatLookup_eq_some hf with ⟨_, hc⟩ | ⟨_, hc⟩ | ⟨_, hc⟩ | ⟨_, hc⟩ | ⟨_, hc⟩ | ⟨_, hc⟩ <;>
          subst hc <;> first | (exact absurd rfl h5) | decide
      refine ⟨hkey, zeroPad_all_digit _ _, zeroPad_all_digit _ _, ?_, ?_⟩
      · show (zeroPad _ _).length = (zeroPad _ _).length
        rw [hle, hln]
      · show (zeroPad _ _).length ≤ 5
        rw [hle]
        rcases formatLookup_eq_some hf with ⟨_, hc⟩ | ⟨_, hc⟩ | ⟨_, hc⟩ | ⟨_, hc⟩ | ⟨_, hc⟩ | ⟨_, hc⟩ <;>
          subst hc <;> first | (exact absurd rfl h5) | decide

lemma string_data_ext {s t : String} (h : s.data = t.data) : s = t := by
  cases s
  cases t
  exact congrArg String.mk h

lemma ediv_pow_toNat_lt {x : Int} (w : Nat) (hw5 : w ≤ 5)
    (hx0 : 0 ≤ x) (hx : x < 100000) : (x / (10 : Int) ^ (5 - w)).toNat < 10 ^ w := by
  have hp : (0 : Int) < 10 ^ (5 - w) := pow_pos (by norm_num) _
  have hmul : (10 : Int) ^ w * 10 ^ (5 - w) = 100000 := by
    rw [← pow_add]
    have h2 : w + (5 - w) = 5 := by omega
    rw [h2]
    norm_num
  have hdiv : x / (10 : Int) ^ (5 - w) < 10 ^ w := by
    apply Int.ediv_lt_of_lt_mul hp
    omega
  have hnn : 0 ≤ x / (10 : Int) ^ (5 - w) := Int.ediv_nonneg hx0 (le_of_lt hp)
  rw [Int.toNat_lt hnn]
  push_cast
  exact hdiv

lemma formatLookup_digit {r : Int} (h1 : 1 ≤ r) (h5 : r ≤ 5) :
    formatLookup r = some (r.toNat, (10 : Int) ^ (5 - r.toNat)) := by
  interval_cases r <;> decide

lemma ToGridRef_digits_eq {coord : GridCoord} {r : Int} {w : Nat}
    (hf : formatLookup r = some (w, (10 : Int) ^ (5 - w)))
    (he0 : 0 ≤ coord.Easting) (he1 : coord.Easting < 800000)
    (hn0 : 0 ≤ coord.Northing + 100000) (hn1 : coord.Northing + 100000 < 1500000) :
    GridCoord.ToGridRef coord r = Except.ok
      ⟨(myriadTable.getD (coord.Easting / 100000).toNat []).getD
          ((coord.Northing + 100000) / 100000).toNat "",
       zeroPad w ((coord.Easting % 100000) / (10 : Int) ^ (5 - w)).toNat,
       zeroPad w (((coord.Northing + 100000) % 100000) / (10 : Int) ^ (5 - w)).toNat⟩ := by
  have hin := ToGridRef_inbounds hf he0 he1 hn0 hn1
  rw [if_neg (pow_ne_zero _ (by norm_num))] at hin
  exact hin

/-! ### The claims -/

/-- C1: for every GridRef whose myriad is a key of the myriad offset table and
whose easting and northing digit strings have equal length n with n ≤ 5,
ToLatLon succeeds and returns the Coordinate equal to the myriad's
south-west-corner offset plus each digit string parsed as a non-negative
integer multiplied by 10^(5-n); when n = 0 the parsed value is 0, so the
result equals the offset itself. -/
theorem C1_toLatLon_projects (g : GridRef) (off : GridCoord) (n : Nat)
    (hoff : lookupOffset g.myriad myriadOffsets = some off)
    (he : g.easting.data.all Char.isDigit = true)
    (hn : g.northing.data.all Char.isDigit = true)
    (hle : g.easting.length = n) (hln : g.northing.length = n) (h5 : n ≤ 5) :
    GridRef.ToLatLon g = Except.ok
      ⟨(digitsToNat g.easting.data : Int) * 10 ^ (5 - n) + off.Easting,
       (digitsToNat g.northing.data : Int) * 10 ^ (5 - n) + off.Northing⟩ := by
  have hval := ToLatLon_digits g off hoff he hn (by omega)
  rw [hval]
  have hp : powFactor g.easting.length = (10 : Int) ^ (5 - n) := by
    unfold powFactor
    rw [hle, if_pos h5]
  rw [hp]

/-- Witness for C1 at the St Helier fixture XD 92356 20839. -/
theorem C1_witness :
    lookupOffset "XD" myriadOffsets = some ⟨300000, -100000⟩ ∧
    GridRef.ToLatLon ⟨"XD", "92356", "20839"⟩ = Except.ok
      ⟨(digitsToNat "92356".data : Int) * 10 ^ (5 - 5) + (300000 : Int),
       (digitsToNat "20839".data : Int) * 10 ^ (5 - 5) + (-100000 : Int)⟩ :=
  ⟨by decide,
   C1_toLatLon_projects ⟨"XD", "92356", "20839"⟩ ⟨300000, -100000⟩ 5
     (by decide) (by decide) (by decide) (by decide) (by decide) (by decide)⟩

/-- C2: for every Coordinate within the myriad table's extents and every
resolution r in 1..5, ToGridRef returns the GridRef of the containing cell's
south-west corner: myriad from table row E/100000 and column (N+100000)/100000,
easting digits floor((E mod 100000) / 10^(5-r)) and northing digits
floor(((N+100000) mod 100000) / 10^(5-r)), each zero-padded to exactly r
digits — truncation, never nearest-cell rounding; in particular
Coordinate{326002, 673723} at resolution 2 yields NT 26 73, not NT 26 74. -/
theorem C2_toGridRef_truncates :
    (∀ (coord : GridCoord) (r : Int), 1 ≤ r → r ≤ 5 →
      0 ≤ coord.Easting → coord.Easting < 800000 →
      0 ≤ coord.Northing + 100000 → coord.Northing + 100000 < 1500000 →
      ∃ g, GridCoord.ToGridRef coord r = Except.ok g ∧
        g.easting = zeroPad r.toNat ((coord.Easting % 100000) / (10 : Int) ^ (5 - r.toNat)).toNat ∧
        g.northing = zeroPad r.toNat
          (((coord.Northing + 100000) % 100000) / (10 : Int) ^ (5 - r.toNat)).toNat ∧
        g.easting.length = r.toNat ∧ g.northing.length = r.toNat ∧
        g.myriad = (myriadTable.getD (coord.Easting / 100000).toNat []).getD
          ((coord.Northing + 100000) / 100000).toNat "") ∧
    GridCoord.ToGridRef ⟨326002, 673723⟩ 2 = Except.ok ⟨"NT", "26", "73"⟩ ∧
    GridCoord.ToGridRef ⟨326002, 673723⟩ 2 ≠ Except.ok ⟨"NT", "26", "74"⟩ := by
  refine ⟨?_, by decide, by decide⟩
  intro coord r h1 h5 he0 he1 hn0 hn1
  have hw5 : r.toNat ≤ 5 := by omega
  have hw1 : 1 ≤ r.toNat := by omega
  have hf := formatLookup_digit h1 h5
  refine ⟨_, ToGridRef_digits_eq hf he0 he1 hn0 hn1, rfl, rfl, ?_, ?_, rfl⟩
  · exact zeroPad_length hw1 (ediv_pow_toNat_lt _ hw5 (by omega) (by omega))
  · exact zeroPad_length hw1 (ediv_pow_toNat_lt _ hw5 (by omega) (by omega))

/-- Witness for C2 at the Edinburgh truncation fixture. -/
theorem C2_witness :
    ∃ g, GridCoord.ToGridRef ⟨326002, 673723⟩ 2 = Except.ok g ∧
      g.easting = zeroPad (2 : Int).toNat
        (((326002 : Int) % 100000) / (10 : Int) ^ (5 - (2 : Int).toNat)).toNat ∧
      g.northing = zeroPad (2 : Int).toNat
        ((((673723 : Int) + 100000) % 100000) / (10 : Int) ^ (5 - (2 : Int).toNat)).toNat ∧
      g.easting.length = (2 : Int).toNat ∧ g.northing.length = (2 : Int).toNat ∧
      g.myriad = (myriadTable.getD (((326002 : Int)) / 100000).toNat []).getD
        ((((673723 : Int)) + 100000) / 100000).toNat "" :=
  C2_toGridRef_truncates.1 ⟨326002, 673723⟩ 2 (by decide) (by decide)
    (by decide) (by decide) (by decide) (by decide)

/-- C3 as stated is false on the code: `strconv.Atoi` accepts signed digit
strings, so the GridRef {TQ, -1, -1} is converted successfully by ToLatLon
(to Coordinate{499000, 99000}), yet converting that Coordinate back at the
GridRef's digit resolution 2 yields SZ 99 99, a different GridRef. -/
theorem C3_roundtrip_cex :
    GridRef.ToLatLon ⟨"TQ", "-1", "-1"⟩ = Except.ok ⟨499000, 99000⟩ ∧
    GridRef.DigitResolution ⟨"TQ", "-1", "-1"⟩ = 2 ∧
    GridCoord.ToGridRef ⟨499000, 99000⟩ 2 = Except.ok ⟨"SZ", "99", "99"⟩ ∧
    (⟨"SZ", "99", "99"⟩ : GridRef) ≠ (⟨"TQ", "-1", "-1"⟩ : GridRef) := by
  decide

/-- C3 amended: for every GridRef whose digit strings contain only the digits
0-9 and have length at most 5 (which covers every GridRef the package's
constructors produce), if ToLatLon succeeds then converting the resulting
Coordinate back with ToGridRef at DigitResolution g returns g itself. -/
theorem C3_roundtrip_amended (g : GridRef) (c : GridCoord)
    (he : g.easting.data.all Char.isDigit = true)
    (hn : g.northing.data.all Char.isDigit = true)
    (h5 : g.easting.length ≤ 5)
    (hok : GridRef.ToLatLon g = Except.ok c) :
    GridCoord.ToGridRef c (GridRef.DigitResolution g) = Except.ok g := by
  obtain ⟨gm, ge, gn⟩ := g
  dsimp only at he hn h5 ⊢
  cases hlk : lookupOffset (GridRef.myriad ⟨gm, ge, gn⟩) myriadOffsets with
  | none => simp [GridRef.ToLatLon, hlk] at hok
  | some off =>
    by_cases hlen : (ge : String).length = (gn : String).length
    case neg => simp [GridRef.ToLatLon, hlk, hlen] at hok
    case pos =>
    have hval := ToLatLon_digits ⟨gm, ge, gn⟩ off hlk he hn hlen
    rw [hval] at hok
    injection hok with hok
    obtain ⟨hkey, hE0, hE1, hEm, hN0, hN1, hNm⟩ := tables_agree _ (lookupOffset_mem _ _ _ hlk)
    dsimp only at hkey hE0 hE1 hEm hN0 hN1 hNm
    rw [show GridRef.DigitResolution ⟨gm, ge, gn⟩ = (ge.length : Int) from rfl]
    by_cases hk0 : ge.length = 0
    · -- myriad-only round trip
      have hlen0 : ge.data.length = gn.data.length := hlen
      have hk0' : ge.data.length = 0 := hk0
      have he0 : ge.data = [] := List.length_eq_zero.mp hk0
      have hn0' : gn.data = [] := List.length_eq_zero.mp (by omega)
      have hge : ge = "" := string_data_ext (by rw [he0])
      have hgn : gn = "" := string_data_ext (by rw [hn0'])
      have hce : c.Easting = off.Easting := by
        rw [← hok]
        show (digitsToNat ge.data : Int) * powFactor ge.length + off.Easting = off.Easting
        rw [he0]
        norm_num [digitsToNat]
      have hcn : c.Northing = off.Northing := by
        rw [← hok]
        show (digitsToNat gn.data : Int) * powFactor ge.length + off.Northing = off.Northing
        rw [hn0']
        norm_num [digitsToNat]
      have hr0 : (ge.length : Int) = 0 := by exact_mod_cast hk0
      rw [hr0]
      have hin := @ToGridRef_inbounds c 0 0 0 (show formatLookup 0 = some (0, 0) from rfl)
        (by omega) (by omega) (by omega) (by omega)
      rw [if_pos rfl] at hin
      rw [hin, hce, hcn, hkey, hge, hgn]
    · -- digit round trip
      have hk1 : 1 ≤ ge.length := by omega
      have hne : ge.data ≠ [] := by
        intro hh
        apply hk0
        show ge.data.length = 0
        rw [hh]
        rfl
      have hnne : gn.data ≠ [] := by
        intro hh
        have : ge.data.length = gn.data.length := hlen
        rw [hh] at this
        simp at this
        exact hk0 this
      have hdigE := List.all_eq_true.mp he
      have hdigN := List.all_eq_true.mp hn
      have hvE : digitsToNat ge.data < 10 ^ ge.length := digitsToNat_lt _ hdigE
      have hvN : digitsToNat gn.data < 10 ^ ge.length := by
        have := digitsToNat_lt gn.data hdigN
        have hl : gn.data.length = ge.length := hlen.symm
        rwa [hl] at this
      have hpf : powFactor ge.length = (10 : Int) ^ (5 - ge.length) := by
        unfold powFactor
        rw [if_pos h5]
      have hcastE : (digitsToNat ge.data : Int) < (10 : Int) ^ ge.length := by exact_mod_cast hvE
      have hcastN : (digitsToNat gn.data : Int) < (10 : Int) ^ ge.length := by exact_mod_cast hvN
      have hppos : (0 : Int) < 10 ^ (5 - ge.length) := pow_pos (by norm_num) _
      have hmul : (10 : Int) ^ ge.length * 10 ^ (5 - ge.length) = 100000 := by
        rw [← pow_add]
        rw [show ge.length + (5 - ge.length) = 5 by omega]
        norm_num
      have hA1 : (digitsToNat ge.data : Int) * 10 ^ (5 - ge.length) < 100000 := by
        calc (digitsToNat ge.data : Int) * 10 ^ (5 - ge.length)
            < 10 ^ ge.length * 10 ^ (5 - ge.length) := by
              exact mul_lt_mul_of_pos_right hcastE hppos
        _ = 100000 := hmul
      have hB1 : (digitsToNat gn.data : Int) * 10 ^ (5 - ge.length) < 100000 := by
        calc (digitsToNat gn.data : Int) * 10 ^ (5 - ge.length)
            < 10 ^ ge.length * 10 ^ (5 - ge.length) := by
              exact mul_lt_mul_of_pos_right hcastN hppos
        _ = 100000 := hmul
      have hA0 : (0 : Int) ≤ (digitsToNat ge.data : Int) * 10 ^ (5 - ge.length) :=
        mul_nonneg (by positivity) (le_of_lt hppos)
      have hB0 : (0 : Int) ≤ (digitsToNat gn.data : Int) * 10 ^ (5 - ge.length) :=
        mul_nonneg (by positivity) (le_of_lt hppos)
      have hcE : c.Easting = (digitsToNat ge.data : Int) * 10 ^ (5 - ge.length) + off.Easting := by
        rw [← hok]
        show (digitsToNat ge.data : Int) * powFactor ge.length + off.Easting = _
        rw [hpf]
      have hcN : c.Northing = (digitsToNat gn.data : Int) * 10 ^ (5 - ge.length) + off.Northing := by
        rw [← hok]
        show (digitsToNat gn.data : Int) * powFactor ge.length + off.Northing = _
        rw [hpf]
      have hf : formatLookup (ge.length : Int) = some (ge.length, (10 : Int) ^ (5 - ge.length)) := by
        have hfl := @formatLookup_digit (ge.length : Int) (by exact_mod_cast hk1)
          (by exact_mod_cast h5)
        rwa [Int.toNat_natCast] at hfl
      have hmain := @ToGridRef_digits_eq c (ge.length : Int) ge.length hf
        (by omega) (by omega) (by omega) (by omega)
      rw [hmain]
      have h1 : c.Easting / 100000 = off.Easting / 100000 := by omega
      have h2 : c.Easting % 100000 = (digitsToNat ge.data : Int) * 10 ^ (5 - ge.length) := by omega
      have h3 : (c.Northing + 100000) / 100000 = (off.Northing + 100000) / 100000 := by omega
      have h4 : (c.Northing + 100000) % 100000 =
          (digitsToNat gn.data : Int) * 10 ^ (5 - ge.length) := by omega
      have hcanc : ∀ v : Nat, ((v : Int) * 10 ^ (5 - ge.length)) / 10 ^ (5 - ge.length) = (v : Int) :=
        fun v => Int.mul_ediv_cancel _ (pow_ne_zero _ (by norm_num))
      rw [h1, h2, h3, h4, hcanc, hcanc, Int.toNat_natCast, Int.toNat_natCast, hkey]
      have hzE : zeroPad ge.length (digitsToNat ge.data) = ge :=
        zeroPad_digitsToNat ge.data hdigE hne
      have hzN : zeroPad ge.length (digitsToNat gn.data) = gn := by
        have := zeroPad_digitsToNat gn.data hdigN hnne
        have hl : gn.data.length = ge.length := hlen.symm
        rwa [hl] at this
      rw [hzE, hzN]

/-- Witness for the amended C3 at the fixture SH 123 124. -/
theorem C3_witness :
    GridCoord.ToGridRef ⟨212300, 312400⟩ (GridRef.DigitResolution ⟨"SH", "123", "124"⟩) =
      Except.ok ⟨"SH", "123", "124"⟩ :=
  C3_roundtrip_amended ⟨"SH", "123", "124"⟩ ⟨212300, 312400⟩
    (by decide) (by decide) (by decide) (by decide)

/-- C4: every string accepted by NewGridRefFromString formats back, via the
GridRef's String() method, to the canonical form (myriad, then, when digits
are present, a single space, the easting digits, a single space, the northing
digits), and that canonical text agrees with the input on every non-space
character — i.e. the output is the input with its whitespace normalized. -/
theorem C4_string_roundtrip (s : String) (g : GridRef)
    (h : NewGridRefFromString s = Except.ok g) :
    GridRef.toString g = (if g.easting = "" then g.myriad
      else g.myriad ++ " " ++ g.easting ++ " " ++ g.northing) ∧
    (GridRef.toString g).data.filter (fun c => c ≠ ' ') =
      s.data.filter (fun c => c ≠ ' ') := by
  refine ⟨?_, (NewGridRefFromString_ok h).2.2.2.2.2⟩
  unfold GridRef.toString
  by_cases he : g.easting = "" <;> simp [he]

/-- Witness for C4 at "TQ3069580671". -/
theorem C4_witness :
    GridRef.toString ⟨"TQ", "30695", "80671"⟩ =
      (if (⟨"TQ", "30695", "80671"⟩ : GridRef).easting = ""
        then (⟨"TQ", "30695", "80671"⟩ : GridRef).myriad
        else (⟨"TQ", "30695", "80671"⟩ : GridRef).myriad ++ " " ++
          (⟨"TQ", "30695", "80671"⟩ : GridRef).easting ++ " " ++
          (⟨"TQ", "30695", "80671"⟩ : GridRef).northing) ∧
    (GridRef.toString ⟨"TQ", "30695", "80671"⟩).data.filter (fun c => c ≠ ' ') =
      ("TQ3069580671" : String).data.filter (fun c => c ≠ ' ') :=
  C4_string_roundtrip "TQ3069580671" ⟨"TQ", "30695", "80671"⟩ (by decide)

set_option maxHeartbeats 2000000 in
lemma lookupOffset_isSome_iff (s : String) : ∀ l : List (String × GridCoord),
    ((lookupOffset s l).isSome = true ↔ s ∈ l.map Prod.fst) := by
  intro l
  induction l with
  | nil => simp [lookupOffset]
  | cons kv rest ih =>
    unfold lookupOffset
    by_cases h : s = kv.1
    · simp [h]
    · simp [h, ih]

lemma mk_pair_inj {a b c d : Char} (h : (⟨[a, b]⟩ : String) = ⟨[c, d]⟩) :
    a = c ∧ b = d := by
  have hd := congrArg String.data h
  simpa using hd

/-- The letter pairs the grammar accepts, enumerated over A-Z × A-Z in order,
are exactly the keys of `myriadOffsets` in their literal order: one evaluated
list comparison. -/
lemma accepted_eq_keys :
    (ltrs.flatMap fun a => (ltrs.filter (matchMyriadPair a)).map
      fun b => (⟨[a, b]⟩ : String)) = myriadOffsets.map Prod.fst := by
  rfl

lemma grammar_eq_keys : ∀ c1 ∈ ltrs, ∀ c2 ∈ ltrs,
    (matchMyriadPair c1 c2 = true ↔
      (⟨[c1, c2]⟩ : String) ∈ myriadOffsets.map Prod.fst) := by
  intro c1 h1 c2 h2
  rw [← accepted_eq_keys]
  constructor
  · intro hm
    exact List.mem_flatMap.mpr ⟨c1, h1,
      List.mem_map.mpr ⟨c2, List.mem_filter.mpr ⟨h2, hm⟩, rfl⟩⟩
  · intro hs
    obtain ⟨a, ha, hs2⟩ := List.mem_flatMap.mp hs
    obtain ⟨b, hb, heq⟩ := List.mem_map.mp hs2
    obtain ⟨hbl, hmb⟩ := List.mem_filter.mp hb
    obtain ⟨hac, hbc⟩ := mk_pair_inj heq
    rw [← hac, ← hbc]
    exact hmb

/-- C5: over all 676 uppercase letter pairs, the `ngrCre` grammar accepts the
pair as a myriad exactly when the myriad offset table contains it as a key. -/
theorem C5_allowlist_equiv :
    ∀ c1 ∈ ltrs, ∀ c2 ∈ ltrs,
      (matchMyriadPair c1 c2 = true ↔
        (lookupOffset (⟨[c1, c2]⟩ : String) myriadOffsets).isSome = true) := by
  intro c1 h1 c2 h2
  rw [lookupOffset_isSome_iff]
  exact grammar_eq_keys c1 h1 c2 h2

/-- Witness for C5 at the pair T, Q. -/
theorem C5_witness :
    'T' ∈ ltrs ∧ 'Q' ∈ ltrs ∧
    (matchMyriadPair 'T' 'Q' = true ↔
      (lookupOffset (⟨['T', 'Q']⟩ : String) myriadOffsets).isSome = true) :=
  ⟨by decide, by decide, C5_allowlist_equiv 'T' (by decide) 'Q' (by decide)⟩

/-- C6 as stated is false: the key HF is present in the myriad offset table
and accepted by the grammar (branch `[JH][F-H]`), but {H}×{F,G,H} is missing
from the union of combinations enumerated in the specification. -/
theorem C6_spec_allowlist_cex :
    (lookupOffset "HF" myriadOffsets).isSome = true ∧
    matchMyriadPair 'H' 'F' = true ∧
    "HF" ∉ specAllowedMyriads := by
  decide

/-- Set equality between the offset-table keys and the specification's
allow-list extended with HF, HG, HH: one evaluated two-sided containment. -/
lemma keys_eq_specEx :
    (((myriadOffsets.map Prod.fst).all
        fun s => (specAllowedMyriads ++ ["HF", "HG", "HH"]).contains s) &&
      ((specAllowedMyriads ++ ["HF", "HG", "HH"]).all
        fun s => (myriadOffsets.map Prod.fst).contains s)) = true := by
  rfl

lemma mem_keys_iff_specEx {s : String} :
    s ∈ myriadOffsets.map Prod.fst ↔ s ∈ specAllowedMyriads ++ ["HF", "HG", "HH"] := by
  have h := keys_eq_specEx
  rw [Bool.and_eq_true, List.all_eq_true, List.all_eq_true] at h
  constructor
  · intro hs
    have hc := h.1 s hs
    simpa using hc
  · intro hs
    have hc := h.2 s hs
    simpa using hc

/-- C6 amended: the grammar's accepted pairs and the offset table's key set
both equal the specification's enumerated union extended by {H}×{F,G,H}
(equivalently, with its first group {J}×{F,G,H} corrected to {J,H}×{F,G,H});
no pair outside that extended list is accepted or present. -/
theorem C6_spec_allowlist_amended :
    ∀ c1 ∈ ltrs, ∀ c2 ∈ ltrs,
      ((lookupOffset (⟨[c1, c2]⟩ : String) myriadOffsets).isSome = true ↔
        ((⟨[c1, c2]⟩ : String) ∈ specAllowedMyriads ∨
          (c1 = 'H' ∧ (c2 = 'F' ∨ c2 = 'G' ∨ c2 = 'H')))) ∧
      (matchMyriadPair c1 c2 = true ↔
        ((⟨[c1, c2]⟩ : String) ∈ specAllowedMyriads ∨
          (c1 = 'H' ∧ (c2 = 'F' ∨ c2 = 'G' ∨ c2 = 'H')))) := by
  intro c1 h1 c2 h2
  have hkey : (⟨[c1, c2]⟩ : String) ∈ myriadOffsets.map Prod.fst ↔
      ((⟨[c1, c2]⟩ : String) ∈ specAllowedMyriads ∨
        (c1 = 'H' ∧ (c2 = 'F' ∨ c2 = 'G' ∨ c2 = 'H'))) := by
    rw [mem_keys_iff_specEx, List.mem_append]
    apply or_congr Iff.rfl
    constructor
    · intro hs
      simp only [List.mem_cons, List.not_mem_nil, or_false] at hs
      rcases hs with h | h | h <;> obtain ⟨hc1, hc2⟩ := mk_pair_inj (h.trans rfl)
      · exact ⟨hc1, Or.inl hc2⟩
      · exact ⟨hc1, Or.inr (Or.inl hc2)⟩
      · exact ⟨hc1, Or.inr (Or.inr hc2)⟩
    · rintro ⟨rfl, rfl | rfl | rfl⟩ <;> decide
  constructor
  · rw [lookupOffset_isSome_iff]
    exact hkey
  · rw [grammar_eq_keys c1 h1 c2 h2]
    exact hkey

/-- Witness for the amended C6 at the pair H, F. -/
theorem C6_witness :
    'H' ∈ ltrs ∧ 'F' ∈ ltrs ∧
    (((lookupOffset (⟨['H', 'F']⟩ : String) myriadOffsets).isSome = true ↔
      ((⟨['H', 'F']⟩ : String) ∈ specAllowedMyriads ∨
        ('H' = 'H' ∧ ('F' = 'F' ∨ 'F' = 'G' ∨ 'F' = 'H')))) ∧
    (matchMyriadPair 'H' 'F' = true ↔
      ((⟨['H', 'F']⟩ : String) ∈ specAllowedMyriads ∨
        ('H' = 'H' ∧ ('F' = 'F' ∨ 'F' = 'G' ∨ 'F' = 'H'))))) :=
  ⟨by decide, by decide, C6_spec_allowlist_amended 'H' (by decide) 'F' (by decide)⟩

lemma invalidResolutionMsg_head (r : Int) :
    (invalidResolutionMsg r).data.head? = some 'd' := by
  unfold invalidResolutionMsg
  rw [String.data_append, String.data_append]
  rfl

lemma error_msg_ne_invalid {r : Int} {m : String} (hm : m.data.head? = some 'o') :
    m ≠ invalidResolutionMsg r := by
  intro h
  rw [h, invalidResolutionMsg_head r] at hm
  exact absurd hm (by decide)

/-- C7: for every coordinate, ToGridRef fails with the invalid-resolution
error (and performs no coordinate processing) exactly when the requested
resolution lies outside {0,1,2,3,4,5}; for resolutions inside that set the
invalid-resolution error is never produced. -/
theorem C7_resolution_check (coord : GridCoord) (r : Int) :
    (¬(0 ≤ r ∧ r ≤ 5) →
      GridCoord.ToGridRef coord r = Except.error (invalidResolutionMsg r)) ∧
    ((0 ≤ r ∧ r ≤ 5) →
      GridCoord.ToGridRef coord r ≠ Except.error (invalidResolutionMsg r)) := by
  constructor
  · intro h
    unfold GridCoord.ToGridRef
    rw [formatLookup_none h]
  · rintro ⟨h0, h5⟩ hcontra
    obtain ⟨cfg, hf⟩ := formatLookup_isSome h0 h5
    unfold GridCoord.ToGridRef at hcontra
    simp only [hf] at hcontra
    split_ifs at hcontra <;>
      first
      | (exact Except.noConfusion hcontra)
      | (injection hcontra with hc; exact absurd hc (error_msg_ne_invalid rfl))

/-- Witness for C7: resolution 6 is rejected with the invalid-resolution
error, resolution 3 is not. -/
theorem C7_witness :
    GridCoord.ToGridRef ⟨530695, 180671⟩ 6 = Except.error (invalidResolutionMsg 6) ∧
    GridCoord.ToGridRef ⟨530695, 180671⟩ 3 ≠ Except.error (invalidResolutionMsg 3) :=
  ⟨(C7_resolution_check ⟨530695, 180671⟩ 6).1 (by decide),
   (C7_resolution_check ⟨530695, 180671⟩ 3).2 (by decide)⟩

/-- C8: at every valid resolution, ToGridRef fails with the direction-named
out-of-extents error exactly as the guards prescribe — west for negative
easting, east when the row index reaches the table's row count, south for
shifted northing below zero, north when the column index reaches the selected
row's column count — and succeeds for every coordinate within coverage. -/
theorem C8_extent_errors (coord : GridCoord) (r : Int) (h0 : 0 ≤ r) (h5 : r ≤ 5) :
    (coord.Easting < 0 →
      GridCoord.ToGridRef coord r =
        Except.error "outside UK - west of extents (northing untested)") ∧
    (0 ≤ coord.Easting → coord.Easting / 100000 ≥ (myriadTable.length : Int) →
      GridCoord.ToGridRef coord r =
        Except.error "outside UK - east of extents (northing untested)") ∧
    (0 ≤ coord.Easting → coord.Easting / 100000 < (myriadTable.length : Int) →
      coord.Northing + 100000 < 0 →
      GridCoord.ToGridRef coord r =
        Except.error "outside UK - south of extents (Easting Ok)") ∧
    (0 ≤ coord.Easting → coord.Easting / 100000 < (myriadTable.length : Int) →
      0 ≤ coord.Northing + 100000 →
      (coord.Northing + 100000) / 100000 ≥
        ((myriadTable.getD (coord.Easting / 100000).toNat []).length : Int) →
      GridCoord.ToGridRef coord r =
        Except.error "outside UK - north of extents (Easting Ok)") ∧
    (0 ≤ coord.Easting → coord.Easting / 100000 < (myriadTable.length : Int) →
      0 ≤ coord.Northing + 100000 →
      (coord.Northing + 100000) / 100000 <
        ((myriadTable.getD (coord.Easting / 100000).toNat []).length : Int) →
      ∃ g, GridCoord.ToGridRef coord r = Except.ok g) := by
  obtain ⟨cfg, hf⟩ := formatLookup_isSome h0 h5
  unfold GridCoord.ToGridRef
  simp only [hf]
  refine ⟨?_, ?_, ?_, ?_, ?_⟩
  · intro h1
    rw [if_pos h1]
  · intro h1 h2
    rw [if_neg (by omega), if_pos h2]
  · intro h1 h2 h3
    rw [if_neg (by omega), if_neg (by omega), if_pos h3]
  · intro h1 h2 h3 h4
    rw [if_neg (by omega), if_neg (by omega), if_neg (by omega), if_pos h4]
  · intro h1 h2 h3 h4
    rw [if_neg (by omega), if_neg (by omega), if_neg (by omega), if_neg (by omega)]
    by_cases hc : cfg.2 = 0
    · rw [if_pos hc]
      exact ⟨_, rfl⟩
    · rw [if_neg hc]
      exact ⟨_, rfl⟩

/-- Witness for C8: one metre west of the XA corner fails west; the corner
itself succeeds. -/
theorem C8_witness :
    GridCoord.ToGridRef ⟨-1, -100000⟩ 2 =
      Except.error "outside UK - west of extents (northing untested)" ∧
    (∃ g, GridCoord.ToGridRef ⟨0, -100000⟩ 2 = Except.ok g) :=
  ⟨(C8_extent_errors ⟨-1, -100000⟩ 2 (by decide) (by decide)).1 (by decide),
   (C8_extent_errors ⟨0, -100000⟩ 2 (by decide) (by decide)).2.2.2.2
     (by decide) (by decide) (by decide) (by decide)⟩

/-- C9: the literal fixtures — parsing then converting reproduces the five
coordinates, and the five malformed strings are rejected by the parser. -/
theorem C9_fixtures :
    (NewGridRefFromString "TQ 30695 80671").bind GridRef.ToLatLon =
      Except.ok ⟨530695, 180671⟩ ∧
    (NewGridRefFromString "SH123124").bind GridRef.ToLatLon =
      Except.ok ⟨212300, 312400⟩ ∧
    (NewGridRefFromString "XA").bind GridRef.ToLatLon = Except.ok ⟨0, -100000⟩ ∧
    (NewGridRefFromString "XD 92356 20839").bind GridRef.ToLatLon =
      Except.ok ⟨392356, -79161⟩ ∧
    (NewGridRefFromString "TQ").bind GridRef.ToLatLon = Except.ok ⟨500000, 100000⟩ ∧
    (NewGridRefFromString "").isOk = false ∧
    (NewGridRefFromString "1").isOk = false ∧
    (NewGridRefFromString "T").isOk = false ∧
    (NewGridRefFromString "TQ1").isOk = false ∧
    (NewGridRefFromString "tq").isOk = false := by
  decide

/-- C10: every GridRef produced by NewGridRefFromString or by
GridCoord.ToGridRef converts without error through ToLatLon: both
constructors only emit a myriad present in the offset table together with
equal-length, purely numeric (or empty) digit strings. -/
theorem C10_constructed_safe :
    (∀ (s : String) (g : GridRef), NewGridRefFromString s = Except.ok g →
      ∃ c, GridRef.ToLatLon g = Except.ok c) ∧
    (∀ (coord : GridCoord) (r : Int) (g : GridRef),
      GridCoord.ToGridRef coord r = Except.ok g →
      ∃ c, GridRef.ToLatLon g = Except.ok c) := by
  constructor
  · intro s g h
    obtain ⟨⟨off, hoff⟩, he, hn, hlen, -, -⟩ := NewGridRefFromString_ok h
    exact ⟨_, ToLatLon_digits g off hoff he hn hlen⟩
  · intro coord r g h
    obtain ⟨hks, he, hn, hlen, -⟩ := ToGridRef_ok_inv h
    obtain ⟨off, hoff⟩ := Option.isSome_iff_exists.mp hks
    exact ⟨_, ToLatLon_digits g off hoff he hn hlen⟩

/-- Witness for C10 at a parsed bare myriad and a reverse-converted GridRef. -/
theorem C10_witness :
    (∃ c, GridRef.ToLatLon ⟨"TQ", "", ""⟩ = Except.ok c) ∧
    (∃ c, GridRef.ToLatLon ⟨"NT", "26", "73"⟩ = Except.ok c) :=
  ⟨C10_constructed_safe.1 "TQ" ⟨"TQ", "", ""⟩ (by decide),
   C10_constructed_safe.2 ⟨326002, 673723⟩ 2 ⟨"NT", "26", "73"⟩ (by decide)⟩

end Ngr
